import Mathlib

/-!
Verification development for the mc-bot repository.

Shallow embedding of the modules the claims concern:
  * `modules/minecraft_log_parser.py` — log tailing state machine and
    per-line event classification / deduplication (`parse_minecraft_logs`,
    `process_log_line`);
  * `modules/persistent_events_storage.py` — durable event ledger
    (`get_processed_events`, `add_processed_event`, `cleanup_expired_events`);
  * `modules/ai_handler.py` — AI orchestration (`should_ai_reply`,
    `get_ai_response`);
  * `modules/websocket_manager.py` — outbound send (`send_message`);
  * `modules/memory_manager.py` — long-term memory rollup
    (`summarize_and_save_long_term_memory`).

Timestamps (`datetime`) are modelled as integers counting seconds, so that
`(a - b).total_seconds()` becomes integer subtraction `a - b`.  Python dicts
are modelled as association lists that keep insertion order and key
uniqueness, mirroring CPython dict semantics.  Effects (messages sent,
memory writes, remote commands) are returned as explicit lists.
-/

namespace McBot

/-- Python `pat in s` (substring containment) on the character list level. -/
def strContainsAux (pat : List Char) : List Char → Bool
  | [] => pat.isEmpty
  | c :: rest => pat.isPrefixOf (c :: rest) || strContainsAux pat rest

/-- Python `pat in s` for strings. -/
def strContains (pat s : String) : Bool :=
  strContainsAux pat.toList s.toList

/-!
### A small regex-subset matcher

The log parser uses `re.search` with patterns built only from literal text,
`.+` / `.*` / `,*` gaps and a single capture group `(.+)` or `(.+?)`.
We embed exactly this subset.  `re.search` tries match start offsets left to
right; within one offset a greedy gap tries the longest extent first and a
lazy gap the shortest, which reproduces Python's backtracking order for this
pattern class.
-/

/-- One piece of a pattern: a literal, a non-capturing gap, or the capture
group.  `lazy` distinguishes `.+?` from `.+`.  `star` is `.*` (or `,*`
collapsed with a neighbouring `.*`), which may match zero characters. -/
inductive Piece where
  | lit : List Char → Piece
  | gap : Bool → Piece
  | star : Piece
  | cap : Bool → Piece
deriving Repr

/-- Candidate lengths for a one-or-more gap over `n` remaining characters:
greedy tries `n, n-1, …, 1`, lazy tries `1, 2, …, n`. -/
def gapLens (lazy : Bool) (n : Nat) : List Nat :=
  if lazy then (List.range n).map (· + 1) else (List.range n).map (fun i => n - i)

/-- Candidate lengths for a zero-or-more gap: `n, n-1, …, 0` (greedy). -/
def starLens (n : Nat) : List Nat :=
  (List.range (n + 1)).map (fun i => n - i)

/-- Matches a piece list against a prefix of `s` (trailing characters may
remain), returning `some capture` on success.  The capture is `[]` when the
pattern has no capture group.  `fuel` bounds the recursion depth; it is
instantiated with the piece-list length, which every recursive call
decreases. -/
def matchPiecesFuel : Nat → List Piece → List Char → Option (List Char)
  | _, [], _ => some []
  | 0, _ :: _, _ => none
  | fuel + 1, Piece.lit l :: ps, s =>
      if l.isPrefixOf s then matchPiecesFuel fuel ps (s.drop l.length) else none
  | fuel + 1, Piece.gap lazy :: ps, s =>
      (gapLens lazy s.length).findSome? (fun i => matchPiecesFuel fuel ps (s.drop i))
  | fuel + 1, Piece.star :: ps, s =>
      (starLens s.length).findSome? (fun i => matchPiecesFuel fuel ps (s.drop i))
  | fuel + 1, Piece.cap lazy :: ps, s =>
      (gapLens lazy s.length).findSome? (fun i =>
        (matchPiecesFuel fuel ps (s.drop i)).map (fun _ => s.take i))

/-- Match a pattern at the start of `s` (trailing characters allowed). -/
def matchPieces (ps : List Piece) (s : List Char) : Option (List Char) :=
  matchPiecesFuel ps.length ps s

/-- Python `re.search`: try every start offset left to right and return the
capture of the first successful match. -/
def researchCapture (ps : List Piece) (s : List Char) : Option (List Char) :=
  (List.range (s.length + 1)).findSome? (fun off => matchPieces ps (s.drop off))

/-- `re.search(...).group(1)` as a `String`-level operation; `none` means the
pattern did not match anywhere in the line. -/
def searchGroup1 (ps : List Piece) (line : String) : Option String :=
  (researchCapture ps line.toList).map (fun cs => String.mk cs)

/-- Whether a pattern matches somewhere in the line (`re.search` is truthy). -/
def searchMatches (ps : List Piece) (line : String) : Bool :=
  (researchCapture ps line.toList).isSome

/-!
### Line classification (`process_log_line`, pattern tables)

Each Python regex is transcribed piece by piece; `\[`, `\]`, `\.`, `\(`,
`\)` are literal characters, `.+` a greedy gap, `.+?` a lazy gap, `.*` a
star.  In the server-ready regex the `,*` after `.*` is a star over the
single character `,`; since it follows `.*` it matches the same line set,
and we transcribe the two of them as two stars (the comma star can match
only commas, which the preceding star can also absorb, so the combined
star/star transcription accepts exactly the same lines).
-/

/-- Python `str.strip()`: drop whitespace from both ends (structural, so
that concrete instances reduce in the kernel). -/
def pyStrip (s : String) : String :=
  String.mk (((s.toList.dropWhile Char.isWhitespace).reverse.dropWhile
    Char.isWhitespace).reverse)

/-- Python `content.split("\n")` (the only separator the source splits on). -/
def splitLinesAux : List Char → List Char → List String
  | [], acc => [String.mk acc.reverse]
  | c :: rest, acc =>
    if c = '\n' then String.mk acc.reverse :: splitLinesAux rest []
    else splitLinesAux rest (c :: acc)

/-- Python `content.split("\n")` on strings. -/
def splitLines (s : String) : List String := splitLinesAux s.toList []

/-- `join_patterns` from `process_log_line`. -/
def join_patterns : List (List Piece) :=
  [ [Piece.lit ("[Server thread/INFO] [net.minecraft.server.MinecraftServer/]: ".toList),
     Piece.cap false, Piece.lit (" joined the game".toList)],
    [Piece.lit ("[Server thread/INFO] [minecraft/MinecraftServer]: ".toList),
     Piece.cap false, Piece.lit (" joined the game".toList)],
    [Piece.lit ("[Server thread/INFO]: ".toList),
     Piece.cap false, Piece.lit (" joined the game".toList)],
    [Piece.cap false, Piece.lit (" joined the game".toList)] ]

/-- `login_patterns` from `process_log_line`. -/
def login_patterns : List (List Piece) :=
  [ [Piece.lit ("[Server thread/INFO] [minecraft/PlayerList]: ".toList),
     Piece.cap false, Piece.lit ("[/".toList), Piece.gap false,
     Piece.lit ("] logged in with entity id ".toList), Piece.gap false] ]

/-- `leave_patterns` from `process_log_line`. -/
def leave_patterns : List (List Piece) :=
  [ [Piece.lit ("[Server thread/INFO] [net.minecraft.server.MinecraftServer/]: ".toList),
     Piece.cap false, Piece.lit (" left the game".toList)],
    [Piece.lit ("[Server thread/INFO] [minecraft/MinecraftServer]: ".toList),
     Piece.cap false, Piece.lit (" left the game".toList)],
    [Piece.lit ("[Server thread/INFO]: ".toList),
     Piece.cap false, Piece.lit (" left the game".toList)],
    [Piece.cap false, Piece.lit (" left the game".toList)] ]

/-- `disconnect_patterns` from `process_log_line`. -/
def disconnect_patterns : List (List Piece) :=
  [ [Piece.lit ("[Server thread/INFO] [net.minecraft.server.network.ServerGamePacketListenerImpl/]: ".toList),
     Piece.cap false, Piece.lit (" lost connection: Disconnected".toList)],
    [Piece.lit ("[Server thread/INFO] [minecraft.server.network.ServerGamePacketListenerImpl/]: ".toList),
     Piece.cap false, Piece.lit (" lost connection: Disconnected".toList)],
    [Piece.lit ("[Server thread/INFO]: ".toList),
     Piece.cap false, Piece.lit (" lost connection: Disconnected".toList)],
    [Piece.cap false, Piece.lit (" lost connection: Disconnected".toList)],
    [Piece.lit ("[Server thread/INFO] [minecraft/ServerLoginPacketListenerImpl]: com.mojang.authlib.GameProfile@".toList),
     Piece.gap true, Piece.lit ("[id=".toList), Piece.gap true,
     Piece.lit (",name=".toList), Piece.cap true,
     Piece.lit (",properties=".toList), Piece.gap true,
     Piece.lit ("] (".toList), Piece.gap false,
     Piece.lit (") lost connection: Disconnected".toList)] ]

/-- Try an ordered pattern list, first match wins (the `for pattern in …`
loops of `process_log_line`). -/
def findGroup1 (pats : List (List Piece)) (line : String) : Option String :=
  pats.findSome? (fun p => searchGroup1 p line)

/-- Python truthiness of an optional string (`None` and `""` are falsy). -/
def truthyOpt : Option String → Bool
  | none => false
  | some s => s ≠ ""

/-- One pattern-class block of `process_log_line`'s cascade, acting on the
running `(player_name, event_type)` pair: the block runs only while
`player_name` is falsy — `None` because nothing has matched yet, or the
empty string because an earlier class matched but its capture stripped to
nothing (the `if not player_name:` guards at lines 174/188/205) — and on a
regex match overwrites both variables.  The first (join) block of the
source has no guard, but its incoming `player_name` is `None`, which is
falsy, so the guarded form is equivalent there too. -/
def classStep (prev : Option String × Option String) (pats : List (List Piece))
    (kind : String) (line : String) : Option String × Option String :=
  if truthyOpt prev.1 then prev
  else
    match findGroup1 pats line with
    | some p => (some (pyStrip p), some kind)
    | none => prev

/-- Event classification of one log line: the join → login → leave →
disconnect cascade of `process_log_line` with its falsy fall-through,
returning the final `(event_type, player_name.strip())` pair — `none` when
no pattern class matched at all; the player name may still be the empty
string here (class matched, capture stripped empty), and the
`if player_name and event_type:` guard of line 224 lives in
`process_log_line`. -/
def classifyLine (line : String) : Option (String × String) :=
  match classStep (classStep (classStep (classStep (none, none)
      join_patterns "join" line) login_patterns "login" line)
      leave_patterns "leave" line) disconnect_patterns "disconnect" line with
  | (some player_name, some event_type) => some (event_type, player_name)
  | _ => none

/-!
### Durable event ledger (`persistent_events_storage.py`)

The in-memory cache / persisted table is a Python dict from event key to
timestamp; we model it as an insertion-ordered association list with unique
keys.  `add_processed_event` and `cleanup_expired_events` both persist the
entire resulting table, so the returned map is simultaneously the new cache
and the new file contents.
-/

/-- Event table: insertion-ordered key/timestamp pairs (a Python dict). -/
abbrev EventMap := List (String × Int)

/-- Dict lookup `events[key]` / `key in events`. -/
def lookupEvent : EventMap → String → Option Int
  | [], _ => none
  | (k', v) :: rest, k => if k' = k then some v else lookupEvent rest k

/-- Dict assignment `events[key] = v`: update in place if the key exists,
else append at the end (CPython insertion order). -/
def dictInsert (k : String) (v : Int) : EventMap → EventMap
  | [] => [(k, v)]
  | (k', v') :: rest => if k' = k then (k', v) :: rest else (k', v') :: dictInsert k v rest

/-- The eviction pass shared by `add_processed_event` and
`cleanup_expired_events`: delete every entry with
`(current_time - event_time).total_seconds() > 3600`. -/
def evictOlderThanHour (now : Int) : EventMap → EventMap
  | [] => []
  | (k, t) :: rest =>
    if now - t > 3600 then evictOlderThanHour now rest
    else (k, t) :: evictOlderThanHour now rest

/-- `add_processed_event(event_key, timestamp)`: insert, then evict entries
more than an hour old relative to `now` (`datetime.now()` inside the
function), then persist.  `timestamp` and `now` are distinct arguments
because the source reads the clock again for the eviction. -/
def add_processed_event (event_key : String) (timestamp : Int) (now : Int) (m : EventMap) :
    EventMap :=
  evictOlderThanHour now (dictInsert event_key timestamp m)

/-- `cleanup_expired_events()`: evict entries more than an hour old, persist. -/
def cleanup_expired_events (now : Int) (m : EventMap) : EventMap :=
  evictOlderThanHour now m

/-!
### Per-line event handling (`process_log_line`)
-/

/-- An outbound group notification (the `send_group_msg` action built in
`process_log_line`). -/
structure Notification where
  group_id : String
  message : String
deriving Repr, DecidableEq

/-- The notification text chosen per event type in `process_log_line`. -/
def eventMessage (event_type player_name : String) : String :=
  if event_type = "join" then "欢迎 " ++ player_name ++ " 加入游戏！"
  else if event_type = "login" then "玩家 " ++ player_name ++ " 正在登录游戏..."
  else if event_type = "leave" then player_name ++ " 离开了游戏，再见！"
  else if event_type = "disconnect" then player_name ++ " 断开了连接，再见！"
  else ""

/-- `process_log_line(line, config)`: classify the line; a classified event
is suppressed when the ledger holds a timestamp for its key less than 300
seconds old, otherwise it is recorded (with the hour eviction), the cleanup
pass runs, and one group notification is emitted when `server_group_id` is
configured; an event whose player name stripped to the empty string is
skipped entirely by the `if player_name and event_type:` guard.  Returns
the resulting ledger and the notifications sent. -/
def process_log_line (line : String) (group_id : String) (now : Int) (events : EventMap) :
    EventMap × List Notification :=
  match classifyLine line with
  | none => (events, [])
  | some (event_type, player_name) =>
    -- `if player_name and event_type:` (line 224): the cascade sets
    -- `event_type` (one of four non-empty literals) whenever it sets
    -- `player_name`, so the live condition is the name's truthiness
    if player_name = "" then (events, [])
    else
    let event_key := event_type ++ ":" ++ player_name
    let should_process :=
      match lookupEvent events event_key with
      | some t => !(decide (now - t < 300))
      | none => true
    if should_process then
      let events1 := add_processed_event event_key now now events
      let events2 := cleanup_expired_events now events1
      if group_id ≠ "" then
        let message := eventMessage event_type player_name
        if message ≠ "" then (events2, [⟨group_id, message⟩])
        else (events2, [])
      else (events2, [])
    else (events, [])

/-- One fetch's worth of line handling: `process_log_line` folded over the
lines in file order (all calls within one fetch observe essentially the
same clock, modelled as a single `now`). -/
def process_log_lines (lines : List String) (group_id : String) (now : Int)
    (events : EventMap) : EventMap × List Notification :=
  match lines with
  | [] => (events, [])
  | l :: rest =>
    let r1 := process_log_line l group_id now events
    let r2 := process_log_lines rest group_id now r1.1
    (r2.1, r1.2 ++ r2.2)

/-!
### Log tailer state machine (`parse_minecraft_logs`)

We model the log-handling core of one loop iteration, from a successful
fetch that produced `log_content`: the content is split on `"\n"`; in the
uninitialized state (`last_position == -1`) the fetch only records a
baseline; otherwise the ready-marker scan may fire (setting
`server_started` and jumping the cursor to end-of-file *before* the
processing loops run), and then the lines from the stored cursor position
to end-of-file are handed to `process_log_line` (skipping lines that are
blank after `strip()`).  The started and not-yet-started branches of the
source run the identical processing loop, so they are modelled once; the
function returns the new cursor state together with the list of lines that
were passed to `process_log_line`, in order.
-/

/-- Cursor state of the tailer: `last_position` (-1 = uninitialized) and
`server_started`. -/
structure TailState where
  last_position : Int
  server_started : Bool
deriving Repr, DecidableEq

/-- The second ("backup") server-ready regex
`\[Server thread/INFO\].*Done .* Took .*,* seconds`. -/
def readyPattern2 : List Piece :=
  [Piece.lit ("[Server thread/INFO]".toList), Piece.star,
   Piece.lit ("Done ".toList), Piece.star,
   Piece.lit (" Took ".toList), Piece.star, Piece.star,
   Piece.lit (" seconds".toList)]

/-- Whether one line triggers the server-ready detection: the literal
`Done (` / `For help, type "help"` containment check, or the backup regex.
In the source the two checks are consecutive `if`s inside one scan loop
that both set the same state and `break`, so per line they amount to this
disjunction. -/
def isReadyMarker (line : String) : Bool :=
  (strContains "Done (" line &&
    (strContains "For help, type \"help\"" line ||
     strContains ("For help, type \x27help\x27") line))
  || searchMatches readyPattern2 line

/-- One fetch of the tailer on `log_content` (empty content is skipped by
the `if log_content:` guard).  Returns the new state and the lines fed to
`process_log_line`. -/
def tailStep (st : TailState) (log_content : String) : TailState × List String :=
  if log_content = "" then (st, [])
  else
    let lines := splitLines log_content
    if st.last_position = -1 then
      ({ last_position := (lines.length : Int), server_started := st.server_started }, [])
    else
      let st1 :=
        if !st.server_started && lines.any isReadyMarker then
          { last_position := (lines.length : Int), server_started := true }
        else st
      let processed := (lines.drop st1.last_position.toNat).filter (fun l => pyStrip l != "")
      ({ last_position := (lines.length : Int), server_started := st1.server_started }, processed)

/-!
### AI orchestration (`ai_handler.py`)

`get_ai_response` talks to the completion API and possibly to the remote
command executor; both are modelled as oracle fields of an `AiEnv`, with
`Except Unit` capturing "the call raised".  The completion's
`message.content` is `Option String` (Python `None` or a string) and each
tool call carries the two fields the code extracts from
`json.loads(tool_call.function.arguments)` — `none` for `parsedArgs` means
`json.loads` raised `JSONDecodeError`.  Effects are explicit: the returned
triple is (reply, short-term memory writes, remote commands issued), where
the reply is `Option String` because the final `return ai_response` can
return Python `None`.
-/

/-- One entry of `completion.choices[0].message.tool_calls`. -/
structure ToolCall where
  name : String
  parsedArgs : Option (Option String × Option String)
deriving Repr

/-- `completion.choices[0].message`, reduced to the fields the code reads. -/
structure Completion where
  content : Option String
  toolCalls : List ToolCall
deriving Repr

/-- Outcome of `execute_command_func`: the `result` dict's `status` and
optional `message` field. -/
inductive CmdResult where
  | success
  | failure (message : Option String)
deriving Repr

/-- Environment of one `get_ai_response` call: whether `ai_client` is set,
whether `execute_command_func and config` is truthy, and the outcomes of
the two remote calls (`Except.error` = the call raised). -/
structure AiEnv where
  hasClient : Bool
  execAvailable : Bool
  completionResult : Except Unit Completion
  execResult : String → Except Unit CmdResult

/-- Outcome of the `for tool_call in choice.message.tool_calls` loop:
an early `return`, falling out of the loop, or an exception escaping to
the outer handler. -/
inductive LoopOut where
  | ret (s : String)
  | fellThrough
  | raised
deriving Repr

/-- The tool-call loop of `get_ai_response`, also accumulating the remote
commands issued.  Non-`teleport_player` calls are skipped; a parse failure
returns the fixed parse-error message; a missing or empty `player_from` /
`player_to` returns the fixed incomplete-parameters message; with the
executor available the `tp` command is issued and its status mapped to the
confirmation or failure string; with no executor the loop falls through to
the next call. -/
def toolCallLoop (env : AiEnv) : List ToolCall → LoopOut × List String
  | [] => (LoopOut.fellThrough, [])
  | tc :: rest =>
    if tc.name = "teleport_player" then
      match tc.parsedArgs with
      | none => (LoopOut.ret "无法解析传送指令参数。", [])
      | some (pf, pt) =>
        if !(truthyOpt pf && truthyOpt pt) then
          (LoopOut.ret "传送指令参数不完整，请指定正确的玩家和目标。", [])
        else if env.execAvailable then
          let command := "tp " ++ pf.getD "" ++ " " ++ pt.getD ""
          match env.execResult command with
          | Except.error _ => (LoopOut.raised, [command])
          | Except.ok CmdResult.success =>
              (LoopOut.ret ("已将玩家 " ++ pf.getD "" ++ " 传送到 " ++ pt.getD ""), [command])
          | Except.ok (CmdResult.failure m) =>
              (LoopOut.ret ("传送失败: " ++ m.getD "未知错误"), [command])
        else toolCallLoop env rest
    else toolCallLoop env rest

/-- A short-term memory write performed via `add_user_memory`:
(user_id, message, response). -/
abbrev MemWrite := String × String × String

/-- `get_ai_response(message, config, execute_command_func, user_id)`.
Returns (reply, memory writes, remote commands).  `reply = some s` models a
Python string return and `none` the `return ai_response` case with
`content is None`; every exception inside the body is caught by the
outer handler and turned into `some ""` (with the side effects that
already happened kept). -/
def get_ai_response (env : AiEnv) (message : String) (user_id : Option String) :
    Option String × List MemWrite × List String :=
  if !env.hasClient then (some "", [], [])
  else
    match env.completionResult with
    | Except.error _ => (some "", [], [])
    | Except.ok completion =>
      let memWrites : List MemWrite :=
        match user_id, completion.content with
        | some uid, some resp =>
            if uid ≠ "" ∧ resp ≠ "" then [(uid, message, resp)] else []
        | _, _ => []
      if completion.toolCalls.isEmpty then
        (completion.content, memWrites, [])
      else
        match toolCallLoop env completion.toolCalls with
        | (LoopOut.ret s, cmds) => (some s, memWrites, cmds)
        | (LoopOut.fellThrough, cmds) => (completion.content, memWrites, cmds)
        | (LoopOut.raised, cmds) => (some "", memWrites, cmds)

/-- `should_ai_reply(message_type, message, self_id)`. -/
def should_ai_reply (ai_enabled : Bool) (message_type : String) (message : String)
    (self_id : Option String) : Bool :=
  if !ai_enabled then false
  else if message_type = "private" then true
  else
    match self_id with
    | some sid =>
        if message_type = "group" ∧ sid ≠ "" then
          strContains ("[CQ:at,qq=" ++ sid ++ "]") message
        else false
    | none => false

/-!
### Outbound send (`websocket_manager.send_message`)

The registry `websocket_connections` maps names to connection objects; a
connection is modelled by its optional `open` attribute (`none` = the
object has no `open` attribute, the `hasattr` check) and by what
`connection.send` would do (`Except.error` = it raises).  `send_message`
returns the (unchanged) registry, the list of payloads for which
`connection.send` was invoked, and the warnings logged.
-/

/-- A registered websocket connection, as observed by `send_message`. -/
structure Conn where
  openAttr : Option Bool
  sendOutcome : Except Unit Unit

/-- The connection registry `websocket_connections`. -/
abbrev ConnRegistry := List (String × Conn)

/-- Registry lookup `websocket_connections.get(name)`. -/
def lookupConn : ConnRegistry → String → Option Conn
  | [], _ => none
  | (n, c) :: rest, name => if n = name then some c else lookupConn rest name

/-- `send_message(message)`: look up the fixed name `"onebot"`; with no
connection, or a connection whose `open` attribute is `False`, log a
warning and drop; otherwise attempt `connection.send`, catching any
exception.  Returns (registry after the call, sends attempted, warnings). -/
def send_message (registry : ConnRegistry) (message : String) :
    ConnRegistry × List String × List String :=
  match lookupConn registry "onebot" with
  | none => (registry, [], ["WebSocket连接不可用，无法发送消息"])
  | some connection =>
    match connection.openAttr with
    | some false => (registry, [], ["WebSocket连接已关闭，无法发送消息"])
    | _ =>
      match connection.sendOutcome with
      | Except.ok _ => (registry, [message], [])
      | Except.error _ => (registry, [message], [])

/-!
### Long-term memory rollup (`memory_manager.summarize_and_save_long_term_memory`)
-/

/-- One short-term `MemoryEntry` (`{timestamp, message, response}`;
`response` defaults to `None`). -/
structure MemoryEntry where
  timestamp : String
  message : String
  response : Option String
deriving Repr, DecidableEq

/-- One `LongTermSummary` entry (`{date, summary, details}`). -/
structure LongTermSummary where
  date : String
  summary : String
  details : String
deriving Repr, DecidableEq

/-- Python `l[-n:]`. -/
def takeLast {α : Type} (n : Nat) (l : List α) : List α :=
  l.drop (l.length - n)

/-- The summary entry built from today's short-term memories. -/
def mkSummaryEntry (today : String) (today_memories : List MemoryEntry) : LongTermSummary :=
  { date := today,
    summary := "当天共有" ++ toString today_memories.length ++ "条交互记录",
    details := String.intercalate "\n"
      (today_memories.map (fun entry =>
        "用户消息: " ++ entry.message ++ "\nAI回复: " ++ entry.response.getD "")) }

/-- `summarize_and_save_long_term_memory(user_id)`, as a function of
today's short-term memories (last 24 h) and the existing long-term list:
no-op when today's memories are empty, otherwise append one summary entry
and trim to the last 30 (`[-30:]`). -/
def summarize_and_save_long_term_memory (today : String)
    (today_memories : List MemoryEntry) (old_memories : List LongTermSummary) :
    List LongTermSummary :=
  if today_memories.isEmpty then old_memories
  else takeLast 30 (old_memories ++ [mkSummaryEntry today today_memories])

/-!
### Ledger copy semantics (`get_processed_events`)

To state that `get_processed_events` returns a *copy* — so that caller-side
mutation cannot reach the cache or the file — we model the Python object
heap explicitly: dict objects live in a heap (a list of `EventMap` values
indexed by allocation order), the module-level name `processed_events` is a
reference into that heap, and `dict.copy()` / `_load_events_from_file()`
allocate fresh cells.  A caller mutating the dict it was handed is
`mutateRef` applied to the returned reference.
-/

/-- State of the storage module: the dict heap, the reference held by the
module-level `processed_events` name, and the backing file's contents. -/
structure LedgerState where
  heap : List EventMap
  cacheRef : Nat
  file : EventMap
deriving Repr

/-- Dereference a heap cell (out-of-range reads as the empty dict; all
reachable references are in range). -/
def heapGet : List EventMap → Nat → EventMap
  | [], _ => []
  | m :: _, 0 => m
  | _ :: t, n + 1 => heapGet t n

/-- Overwrite a heap cell in place. -/
def heapSet : List EventMap → Nat → EventMap → List EventMap
  | [], _, _ => []
  | _ :: t, 0, m => m :: t
  | h :: t, n + 1, m => h :: heapSet t n m

/-- `get_processed_events()`: if the cached dict is empty, rebind
`processed_events` to a fresh dict loaded from the file; then return
`processed_events.copy()` — a newly allocated dict with the same contents.
Returns the new module state and the reference handed to the caller. -/
def get_processed_events (s : LedgerState) : LedgerState × Nat :=
  let s1 :=
    if heapGet s.heap s.cacheRef = [] then
      { s with heap := s.heap ++ [s.file], cacheRef := s.heap.length }
    else s
  ({ s1 with heap := s1.heap ++ [heapGet s1.heap s1.cacheRef] }, s1.heap.length)

/-- A caller-side mutation (insert, update or delete keys) of the dict
behind reference `r`. -/
def mutateRef (s : LedgerState) (r : Nat) (f : EventMap → EventMap) : LedgerState :=
  { s with heap := heapSet s.heap r (f (heapGet s.heap r)) }

/-!
## Lemmas about the event ledger
-/

theorem lookupEvent_cons (k' : String) (v : Int) (rest : EventMap) (k : String) :
    lookupEvent ((k', v) :: rest) k = if k' = k then some v else lookupEvent rest k := by
  simp [lookupEvent]

theorem lookup_dictInsert (k : String) (v : Int) (m : EventMap) :
    lookupEvent (dictInsert k v m) k = some v := by
  induction m with
  | nil => simp [dictInsert, lookupEvent]
  | cons kv rest ih =>
    obtain ⟨k', v'⟩ := kv
    by_cases h : k' = k
    · subst h
      simp [dictInsert, lookupEvent]
    · simp [dictInsert, lookupEvent, h, ih]

theorem lookup_dictInsert_ne (k : String) (v : Int) (m : EventMap) (k₀ : String)
    (h : k₀ ≠ k) : lookupEvent (dictInsert k v m) k₀ = lookupEvent m k₀ := by
  induction m with
  | nil =>
    rw [dictInsert, lookupEvent_cons, if_neg (fun hh => h hh.symm)]
  | cons kv rest ih =>
    obtain ⟨k', v'⟩ := kv
    by_cases hk : k' = k
    · subst hk
      rw [dictInsert, if_pos rfl, lookupEvent_cons, lookupEvent_cons,
        if_neg (fun hh => h hh.symm), if_neg (fun hh => h hh.symm)]
    · rw [dictInsert, if_neg hk, lookupEvent_cons, lookupEvent_cons, ih]

/-- Key uniqueness — the invariant every Python dict satisfies.  The maps
produced by the storage module always satisfy it (see the preservation
lemmas below). -/
def isDict (m : EventMap) : Prop := (m.map Prod.fst).Nodup

theorem lookup_evict_bound (now : Int) (m : EventMap) (k : String) (t : Int)
    (h : lookupEvent (evictOlderThanHour now m) k = some t) : now - t ≤ 3600 := by
  induction m with
  | nil => simp [evictOlderThanHour, lookupEvent] at h
  | cons kv rest ih =>
    obtain ⟨k', t'⟩ := kv
    by_cases hexp : now - t' > 3600
    · rw [evictOlderThanHour, if_pos hexp] at h
      exact ih h
    · rw [evictOlderThanHour, if_neg hexp, lookupEvent_cons] at h
      by_cases hk : k' = k
      · rw [if_pos hk] at h
        obtain rfl : t' = t := by injection h
        omega
      · rw [if_neg hk] at h
        exact ih h

theorem lookup_none_of_not_mem (m : EventMap) (k : String)
    (h : k ∉ m.map Prod.fst) : lookupEvent m k = none := by
  induction m with
  | nil => rfl
  | cons kv rest ih =>
    obtain ⟨k', t'⟩ := kv
    simp only [List.map_cons, List.mem_cons] at h
    push_neg at h
    rw [lookupEvent_cons, if_neg (fun hh => h.1 hh.symm)]
    exact ih h.2

theorem lookup_evict_none (now : Int) (m : EventMap) (k : String)
    (h : lookupEvent m k = none) : lookupEvent (evictOlderThanHour now m) k = none := by
  induction m with
  | nil => rfl
  | cons kv rest ih =>
    obtain ⟨k', t'⟩ := kv
    rw [lookupEvent_cons] at h
    by_cases hk : k' = k
    · rw [if_pos hk] at h
      exact absurd h (by simp)
    · rw [if_neg hk] at h
      by_cases hexp : now - t' > 3600
      · rw [evictOlderThanHour, if_pos hexp]
        exact ih h
      · rw [evictOlderThanHour, if_neg hexp, lookupEvent_cons, if_neg hk]
        exact ih h

theorem lookup_evict_dropped (now : Int) (m : EventMap) (k : String) (t : Int)
    (hm : isDict m) (hl : lookupEvent m k = some t) (hexp : now - t > 3600) :
    lookupEvent (evictOlderThanHour now m) k = none := by
  induction m with
  | nil => simp [lookupEvent] at hl
  | cons kv rest ih =>
    obtain ⟨k', t'⟩ := kv
    have hm' : isDict rest := (List.nodup_cons.mp hm).2
    rw [lookupEvent_cons] at hl
    by_cases hk : k' = k
    · rw [if_pos hk] at hl
      obtain rfl : t' = t := by injection hl
      rw [evictOlderThanHour, if_pos hexp]
      apply lookup_evict_none
      apply lookup_none_of_not_mem
      rw [← hk]
      exact (List.nodup_cons.mp hm).1
    · rw [if_neg hk] at hl
      by_cases hexp' : now - t' > 3600
      · rw [evictOlderThanHour, if_pos hexp']
        exact ih hm' hl
      · rw [evictOlderThanHour, if_neg hexp', lookupEvent_cons, if_neg hk]
        exact ih hm' hl

theorem lookup_evict_kept (now : Int) (m : EventMap) (k : String) (t : Int)
    (hl : lookupEvent m k = some t) (hfresh : ¬ now - t > 3600) :
    lookupEvent (evictOlderThanHour now m) k = some t := by
  induction m with
  | nil => simp [lookupEvent] at hl
  | cons kv rest ih =>
    obtain ⟨k', t'⟩ := kv
    rw [lookupEvent_cons] at hl
    by_cases hk : k' = k
    · rw [if_pos hk] at hl
      obtain rfl : t' = t := by injection hl
      rw [evictOlderThanHour, if_neg hfresh, lookupEvent_cons, if_pos hk]
    · rw [if_neg hk] at hl
      by_cases hexp' : now - t' > 3600
      · rw [evictOlderThanHour, if_pos hexp']
        exact ih hl
      · rw [evictOlderThanHour, if_neg hexp', lookupEvent_cons, if_neg hk]
        exact ih hl

theorem mem_keys_dictInsert (k : String) (v : Int) (m : EventMap) (x : String)
    (h : x ∈ (dictInsert k v m).map Prod.fst) : x ∈ m.map Prod.fst ∨ x = k := by
  induction m with
  | nil =>
    simp only [dictInsert, List.map_cons, List.map_nil, List.mem_cons,
      List.not_mem_nil, or_false] at h
    exact Or.inr h
  | cons kv rest ih =>
    obtain ⟨k', v'⟩ := kv
    by_cases hk : k' = k
    · rw [dictInsert, if_pos hk] at h
      simp only [List.map_cons, List.mem_cons] at h ⊢
      rcases h with h | h
      · exact Or.inl (Or.inl h)
      · exact Or.inl (Or.inr h)
    · rw [dictInsert, if_neg hk] at h
      simp only [List.map_cons, List.mem_cons] at h ⊢
      rcases h with h | h
      · exact Or.inl (Or.inl h)
      · rcases ih h with h' | h'
        · exact Or.inl (Or.inr h')
        · exact Or.inr h'

theorem mem_keys_evict (now : Int) (m : EventMap) (x : String)
    (h : x ∈ (evictOlderThanHour now m).map Prod.fst) : x ∈ m.map Prod.fst := by
  induction m with
  | nil => exact h
  | cons kv rest ih =>
    obtain ⟨k', t'⟩ := kv
    by_cases hexp : now - t' > 3600
    · rw [evictOlderThanHour, if_pos hexp] at h
      simp only [List.map_cons, List.mem_cons]
      exact Or.inr (ih h)
    · rw [evictOlderThanHour, if_neg hexp] at h
      simp only [List.map_cons, List.mem_cons] at h ⊢
      rcases h with h | h
      · exact Or.inl h
      · exact Or.inr (ih h)

theorem isDict_dictInsert (k : String) (v : Int) (m : EventMap) (hm : isDict m) :
    isDict (dictInsert k v m) := by
  induction m with
  | nil => simp [dictInsert, isDict]
  | cons kv rest ih =>
    obtain ⟨k', v'⟩ := kv
    have hm' := hm
    simp only [isDict, List.map_cons, List.nodup_cons] at hm'
    obtain ⟨hhead, hrest⟩ := hm'
    by_cases hk : k' = k
    · rw [dictInsert, if_pos hk]
      exact hm
    · rw [dictInsert, if_neg hk]
      simp only [isDict, List.map_cons, List.nodup_cons]
      refine ⟨?_, ih hrest⟩
      intro hmem
      rcases mem_keys_dictInsert k v rest k' hmem with h | h
      · exact hhead h
      · exact hk h

theorem lookup_mem (m : EventMap) (k : String) (t : Int)
    (h : lookupEvent m k = some t) : (k, t) ∈ m := by
  induction m with
  | nil => simp [lookupEvent] at h
  | cons kv rest ih =>
    obtain ⟨k', t'⟩ := kv
    rw [lookupEvent_cons] at h
    by_cases hk : k' = k
    · rw [if_pos hk] at h
      obtain rfl : t' = t := by injection h
      subst hk
      exact List.mem_cons_self _ _
    · rw [if_neg hk] at h
      exact List.mem_cons_of_mem _ (ih h)

theorem isDict_evict (now : Int) (m : EventMap) (hm : isDict m) :
    isDict (evictOlderThanHour now m) := by
  induction m with
  | nil => exact hm
  | cons kv rest ih =>
    obtain ⟨k', t'⟩ := kv
    have hm' := hm
    simp only [isDict, List.map_cons, List.nodup_cons] at hm'
    obtain ⟨hhead, hrest⟩ := hm'
    by_cases hexp : now - t' > 3600
    · rw [evictOlderThanHour, if_pos hexp]
      exact ih hrest
    · rw [evictOlderThanHour, if_neg hexp]
      simp only [isDict, List.map_cons, List.nodup_cons]
      exact ⟨fun hmem => hhead (mem_keys_evict now rest k' hmem), ih hrest⟩

/-!
## Lemmas about line classification and `process_log_line`
-/

theorem classStep_snd (prev : Option String × Option String) (pats : List (List Piece))
    (kind line : String) :
    (classStep prev pats kind line).2 = prev.2
    ∨ (classStep prev pats kind line).2 = some kind := by
  unfold classStep
  by_cases h : truthyOpt prev.1 = true
  · rw [if_pos h]
    exact Or.inl rfl
  · rw [if_neg h]
    cases hf : findGroup1 pats line
    · exact Or.inl rfl
    · exact Or.inr rfl

theorem classify_kind (line et p : String) (h : classifyLine line = some (et, p)) :
    et = "join" ∨ et = "login" ∨ et = "leave" ∨ et = "disconnect" := by
  unfold classifyLine at h
  rcases h1 : classStep (none, none) join_patterns "join" line with ⟨pn1, et1⟩
  rw [h1] at h
  rcases h2 : classStep (pn1, et1) login_patterns "login" line with ⟨pn2, et2⟩
  rw [h2] at h
  rcases h3 : classStep (pn2, et2) leave_patterns "leave" line with ⟨pn3, et3⟩
  rw [h3] at h
  rcases h4 : classStep (pn3, et3) disconnect_patterns "disconnect" line with ⟨pn4, et4⟩
  rw [h4] at h
  have k1 := classStep_snd (none, none) join_patterns "join" line
  rw [h1] at k1
  have k2 := classStep_snd (pn1, et1) login_patterns "login" line
  rw [h2] at k2
  have k3 := classStep_snd (pn2, et2) leave_patterns "leave" line
  rw [h3] at k3
  have k4 := classStep_snd (pn3, et3) disconnect_patterns "disconnect" line
  rw [h4] at k4
  dsimp only at k1 k2 k3 k4
  cases pn4 with
  | none => simp at h
  | some p4 =>
    cases et4 with
    | none => simp at h
    | some e4 =>
      have he : e4 = et := by
        simp only [Option.some.injEq, Prod.mk.injEq] at h
        exact h.1
      subst he
      rcases k4 with k4 | k4
      · rcases k3 with k3 | k3
        · rcases k2 with k2 | k2
          · rcases k1 with k1 | k1
            · exact absurd ((k4.trans k3).trans (k2.trans k1)) (by simp)
            · have hh := (k4.trans k3).trans (k2.trans k1)
              simp only [Option.some.injEq] at hh
              exact Or.inl hh
          · have hh := (k4.trans k3).trans k2
            simp only [Option.some.injEq] at hh
            exact Or.inr (Or.inl hh)
        · have hh := k4.trans k3
          simp only [Option.some.injEq] at hh
          exact Or.inr (Or.inr (Or.inl hh))
      · simp only [Option.some.injEq] at k4
        exact Or.inr (Or.inr (Or.inr k4))

theorem append_ne_empty_of_right (a b : String) (hb : b ≠ "") : a ++ b ≠ "" := by
  intro h
  apply hb
  have hd := congrArg String.data h
  rw [String.data_append] at hd
  have hb' : b.data = [] := (List.append_eq_nil.mp hd).2
  cases b
  simp_all

theorem eventMessage_ne_empty (line et p : String)
    (hc : classifyLine line = some (et, p)) : eventMessage et p ≠ "" := by
  rcases classify_kind line et p hc with rfl | rfl | rfl | rfl
  · exact append_ne_empty_of_right _ _ (by decide)
  · simpa [eventMessage] using append_ne_empty_of_right ("玩家 " ++ p) _ (by decide)
  · simpa [eventMessage] using append_ne_empty_of_right p _ (by decide)
  · simpa [eventMessage] using append_ne_empty_of_right p _ (by decide)

/-- A classified event whose player name stripped empty is skipped by the
`if player_name and event_type:` guard. -/
theorem pll_empty_name (line gid : String) (now : Int) (E : EventMap) (et : String)
    (hc : classifyLine line = some (et, "")) :
    process_log_line line gid now E = (E, []) := by
  simp [process_log_line, hc]

theorem pll_suppressed (line gid : String) (now : Int) (E : EventMap) (et p : String)
    (t : Int) (hc : classifyLine line = some (et, p))
    (hl : lookupEvent E (et ++ ":" ++ p) = some t) (ht : now - t < 300) :
    process_log_line line gid now E = (E, []) := by
  by_cases hp : p = ""
  · subst hp
    exact pll_empty_name line gid now E et hc
  · simp [process_log_line, hc, hp, hl, ht]

theorem pll_fresh (line gid : String) (now : Int) (E : EventMap) (et p : String)
    (hc : classifyLine line = some (et, p)) (hp : p ≠ "")
    (hl : ∀ t, lookupEvent E (et ++ ":" ++ p) = some t → ¬ now - t < 300)
    (hg : gid ≠ "") :
    process_log_line line gid now E =
      (cleanup_expired_events now (add_processed_event (et ++ ":" ++ p) now now E),
       [⟨gid, eventMessage et p⟩]) := by
  have hmsg := eventMessage_ne_empty line et p hc
  cases hE : lookupEvent E (et ++ ":" ++ p) with
  | none => simp [process_log_line, hc, hp, hE, hg, hmsg]
  | some t =>
    have ht := hl t hE
    simp [process_log_line, hc, hp, hE, ht, hg, hmsg]

theorem pll_fresh_nogroup (line : String) (now : Int) (E : EventMap) (et p : String)
    (hc : classifyLine line = some (et, p)) (hp : p ≠ "")
    (hl : ∀ t, lookupEvent E (et ++ ":" ++ p) = some t → ¬ now - t < 300) :
    process_log_line line "" now E =
      (cleanup_expired_events now (add_processed_event (et ++ ":" ++ p) now now E), []) := by
  cases hE : lookupEvent E (et ++ ":" ++ p) with
  | none => simp [process_log_line, hc, hp, hE]
  | some t =>
    have ht := hl t hE
    simp [process_log_line, hc, hp, hE, ht]

theorem pll_unclassified (line gid : String) (now : Int) (E : EventMap)
    (hc : classifyLine line = none) :
    process_log_line line gid now E = (E, []) := by
  simp [process_log_line, hc]

theorem lookup_after_record (now : Int) (E : EventMap) (key : String) :
    lookupEvent (cleanup_expired_events now (add_processed_event key now now E)) key
      = some now := by
  unfold cleanup_expired_events add_processed_event
  have h1 := lookup_dictInsert key now E
  have h2 := lookup_evict_kept now (dictInsert key now E) key now h1 (by omega)
  exact lookup_evict_kept now _ key now h2 (by omega)

/-- `process_log_line` updates the ledger the same way whether or not a
notification group is configured. -/
theorem pll_fresh_fst (line gid : String) (now : Int) (E : EventMap) (et p : String)
    (hc : classifyLine line = some (et, p)) (hp : p ≠ "")
    (hl : ∀ t, lookupEvent E (et ++ ":" ++ p) = some t → ¬ now - t < 300) :
    (process_log_line line gid now E).1 =
      cleanup_expired_events now (add_processed_event (et ++ ":" ++ p) now now E) := by
  by_cases hg : gid = ""
  · subst hg
    rw [pll_fresh_nogroup line now E et p hc hp hl]
  · rw [pll_fresh line gid now E et p hc hp hl hg]

/-- All timestamps in the map equal `now` (holds throughout a single fetch
processed from an empty ledger). -/
def allAt (now : Int) (E : EventMap) : Prop := ∀ kv ∈ E, kv.2 = now

theorem evict_id_of_allAt (now : Int) (E : EventMap) (h : allAt now E) :
    evictOlderThanHour now E = E := by
  induction E with
  | nil => rfl
  | cons kv rest ih =>
    obtain ⟨k, t⟩ := kv
    have ht : t = now := h (k, t) (List.mem_cons_self _ _)
    subst ht
    rw [evictOlderThanHour, if_neg (by omega)]
    rw [ih (fun kv hkv => h kv (List.mem_cons_of_mem _ hkv))]

theorem allAt_dictInsert (now : Int) (E : EventMap) (k : String) (h : allAt now E) :
    allAt now (dictInsert k now E) := by
  induction E with
  | nil =>
    intro kv hkv
    simp only [dictInsert, List.mem_singleton] at hkv
    subst hkv
    rfl
  | cons kv₀ rest ih =>
    obtain ⟨k', t'⟩ := kv₀
    have ht' : t' = now := h (k', t') (List.mem_cons_self _ _)
    have hrest : allAt now rest := fun kv hkv => h kv (List.mem_cons_of_mem _ hkv)
    by_cases hk : k' = k
    · rw [dictInsert, if_pos hk]
      intro kv hkv
      rcases List.mem_cons.mp hkv with rfl | hkv
      · rfl
      · exact hrest kv hkv
    · rw [dictInsert, if_neg hk]
      intro kv hkv
      rcases List.mem_cons.mp hkv with rfl | hkv
      · exact ht'
      · exact ih hrest kv hkv

/-- One `process_log_line` step preserves the `allAt now` invariant, keeps
every key that already maps to `now`, and afterwards maps the key of the
line's own event (if any) to `now`. -/
theorem pll_allAt (line gid : String) (now : Int) (E : EventMap) (h : allAt now E) :
    allAt now (process_log_line line gid now E).1
    ∧ (∀ k, lookupEvent E k = some now →
        lookupEvent (process_log_line line gid now E).1 k = some now)
    ∧ (∀ et p, classifyLine line = some (et, p) → p ≠ "" →
        lookupEvent (process_log_line line gid now E).1 (et ++ ":" ++ p) = some now) := by
  cases hc : classifyLine line with
  | none =>
    rw [pll_unclassified line gid now E hc]
    exact ⟨h, fun k hk => hk, fun et p hcc _ => Option.noConfusion hcc⟩
  | some q =>
    obtain ⟨et, p⟩ := q
    by_cases hp : p = ""
    · subst hp
      rw [pll_empty_name line gid now E et hc]
      refine ⟨h, fun k hk => hk, fun et' p' hcc hp' => ?_⟩
      obtain ⟨rfl, rfl⟩ : et = et' ∧ "" = p' := by
        injection hcc with hq
        exact ⟨congrArg Prod.fst hq, congrArg Prod.snd hq⟩
      exact absurd rfl hp'
    · cases hE : lookupEvent E (et ++ ":" ++ p) with
      | some t =>
        have ht : t = now := h (et ++ ":" ++ p, t) (lookup_mem E _ t hE)
        rw [ht] at hE
        rw [pll_suppressed line gid now E et p now hc hE (by omega)]
        refine ⟨h, fun k hk => hk, fun et' p' hcc hp' => ?_⟩
        obtain ⟨rfl, rfl⟩ : et = et' ∧ p = p' := by
          injection hcc with hq
          exact ⟨congrArg Prod.fst hq, congrArg Prod.snd hq⟩
        exact hE
      | none =>
        have hfst := pll_fresh_fst line gid now E et p hc hp
          (fun t ht => by rw [hE] at ht; cases ht)
        have hins : allAt now (dictInsert (et ++ ":" ++ p) now E) :=
          allAt_dictInsert now E _ h
        have hM : (process_log_line line gid now E).1
            = dictInsert (et ++ ":" ++ p) now E := by
          rw [hfst]
          unfold cleanup_expired_events add_processed_event
          rw [evict_id_of_allAt now _ hins, evict_id_of_allAt now _ hins]
        refine ⟨?_, ?_, ?_⟩
        · rw [hM]; exact hins
        · intro k hk
          rw [hM]
          by_cases hkk : k = et ++ ":" ++ p
          · subst hkk; exact lookup_dictInsert _ now E
          · rw [lookup_dictInsert_ne _ now E k hkk]; exact hk
        · intro et' p' hcc hp'
          obtain ⟨rfl, rfl⟩ : et = et' ∧ p = p' := by
            injection hcc with hq
            exact ⟨congrArg Prod.fst hq, congrArg Prod.snd hq⟩
          rw [hM]
          exact lookup_dictInsert _ now E

/-- After one fetch is processed from a ledger whose entries are all at
`now`, every key classified from the fetch's lines maps to `now`. -/
theorem plls_allAt (lines : List String) (gid : String) (now : Int) (E : EventMap)
    (h : allAt now E) :
    allAt now (process_log_lines lines gid now E).1
    ∧ (∀ k, lookupEvent E k = some now →
        lookupEvent (process_log_lines lines gid now E).1 k = some now)
    ∧ (∀ l ∈ lines, ∀ et p, classifyLine l = some (et, p) → p ≠ "" →
        lookupEvent (process_log_lines lines gid now E).1 (et ++ ":" ++ p) = some now) := by
  induction lines generalizing E with
  | nil => exact ⟨h, fun k hk => hk, by simp⟩
  | cons l rest ih =>
    obtain ⟨h1, h2, h3⟩ := pll_allAt l gid now E h
    obtain ⟨ih1, ih2, ih3⟩ := ih (process_log_line l gid now E).1 h1
    have hfst : (process_log_lines (l :: rest) gid now E).1 =
        (process_log_lines rest gid now (process_log_line l gid now E).1).1 := by
      simp [process_log_lines]
    refine ⟨?_, ?_, ?_⟩
    · rw [hfst]; exact ih1
    · intro k hk
      rw [hfst]
      exact ih2 k (h2 k hk)
    · intro l' hl' et p hcc hp'
      rw [hfst]
      rcases List.mem_cons.mp hl' with rfl | hl'
      · exact ih2 _ (h3 et p hcc hp')
      · exact ih3 l' hl' et p hcc hp' 

/-- Re-processing lines whose classified keys all sit in the ledger less
than 300 seconds old leaves the ledger untouched and emits nothing. -/
theorem plls_refeed (lines : List String) (gid : String) (now2 : Int) (E1 : EventMap)
    (h : ∀ l ∈ lines, ∀ et p, classifyLine l = some (et, p) → p ≠ "" →
        ∃ t, lookupEvent E1 (et ++ ":" ++ p) = some t ∧ now2 - t < 300) :
    process_log_lines lines gid now2 E1 = (E1, []) := by
  induction lines with
  | nil => rfl
  | cons l rest ih =>
    have hstep : process_log_line l gid now2 E1 = (E1, []) := by
      cases hc : classifyLine l with
      | none => exact pll_unclassified l gid now2 E1 hc
      | some q =>
        obtain ⟨et, p⟩ := q
        by_cases hp : p = ""
        · subst hp
          exact pll_empty_name l gid now2 E1 et hc
        · obtain ⟨t, hlt, htt⟩ := h l (List.mem_cons_self _ _) et p hc hp
          exact pll_suppressed l gid now2 E1 et p t hc hlt htt
    have hrest := ih (fun l' hl' et p hc hp => h l' (List.mem_cons_of_mem _ hl') et p hc hp)
    simp [process_log_lines, hstep, hrest]

/-!
## Claim theorems
-/

/-- **C2** — Deduplication: (1) a classified event whose key sits in the
ledger less than 300 seconds old is suppressed: nothing is sent and the
ledger is unchanged; (2) otherwise (no entry, or a stale one), for an event
with a truthy player name — the only events the
`if player_name and event_type:` guard lets through — the key is recorded
at the current time and, with a notification group configured, exactly one
notification is sent; (3) hence two identical classified events within 300
seconds of each other, starting from no entry for the key, produce exactly
one notification; (4) re-feeding the same fetch content within 300 seconds
(processed from an empty ledger) emits zero additional notifications. -/
theorem C2_deduplication :
    (∀ (line gid : String) (now : Int) (E : EventMap) (et p : String) (t : Int),
      classifyLine line = some (et, p) →
      lookupEvent E (et ++ ":" ++ p) = some t → now - t < 300 →
      process_log_line line gid now E = (E, []))
    ∧ (∀ (line gid : String) (now : Int) (E : EventMap) (et p : String),
      classifyLine line = some (et, p) → p ≠ "" →
      (∀ t, lookupEvent E (et ++ ":" ++ p) = some t → ¬ now - t < 300) → gid ≠ "" →
      lookupEvent (process_log_line line gid now E).1 (et ++ ":" ++ p) = some now
      ∧ (process_log_line line gid now E).2 = [⟨gid, eventMessage et p⟩])
    ∧ (∀ (line gid : String) (now₁ now₂ : Int) (E : EventMap) (et p : String),
      classifyLine line = some (et, p) → p ≠ "" →
      lookupEvent E (et ++ ":" ++ p) = none →
      gid ≠ "" → 0 ≤ now₂ - now₁ → now₂ - now₁ < 300 →
      ((process_log_line line gid now₁ E).2 ++
        (process_log_line line gid now₂ (process_log_line line gid now₁ E).1).2).length
        = 1)
    ∧ (∀ (lines : List String) (gid : String) (now₁ now₂ : Int),
      0 ≤ now₂ - now₁ → now₂ - now₁ < 300 →
      (process_log_lines lines gid now₂ (process_log_lines lines gid now₁ []).1).2
        = []) := by
  have fresh : ∀ (line gid : String) (now : Int) (E : EventMap) (et p : String),
      classifyLine line = some (et, p) → p ≠ "" →
      (∀ t, lookupEvent E (et ++ ":" ++ p) = some t → ¬ now - t < 300) → gid ≠ "" →
      lookupEvent (process_log_line line gid now E).1 (et ++ ":" ++ p) = some now
      ∧ (process_log_line line gid now E).2 = [⟨gid, eventMessage et p⟩] := by
    intro line gid now E et p hc hp hl hg
    rw [pll_fresh line gid now E et p hc hp hl hg]
    exact ⟨lookup_after_record now E _, rfl⟩
  refine ⟨?_, fresh, ?_, ?_⟩
  · intro line gid now E et p t hc hl ht
    exact pll_suppressed line gid now E et p t hc hl ht
  · intro line gid now₁ now₂ E et p hc hp hE hg h0 h300
    obtain ⟨hrec, hsnd⟩ := fresh line gid now₁ E et p hc hp
      (fun t ht => by rw [hE] at ht; cases ht) hg
    have hsupp := pll_suppressed line gid now₂ (process_log_line line gid now₁ E).1
      et p now₁ hc hrec (by omega)
    rw [hsupp, hsnd]
    rfl
  · intro lines gid now₁ now₂ h0 h300
    have hbase : allAt now₁ ([] : EventMap) := by
      intro kv hkv
      cases hkv
    obtain ⟨_, _, h3⟩ := plls_allAt lines gid now₁ [] hbase
    rw [plls_refeed lines gid now₂ (process_log_lines lines gid now₁ []).1
      (fun l hl et p hc hp => ⟨now₁, h3 l hl et p hc hp, by omega⟩)]

/-- Witness for C2: the same join line processed twice, 210 seconds apart,
from an empty ledger produces exactly one notification. -/
theorem C2_deduplication_witness :
    ((process_log_line "Alice joined the game" "g" 100 []).2 ++
      (process_log_line "Alice joined the game" "g" 310
        (process_log_line "Alice joined the game" "g" 100 []).1).2).length = 1 :=
  C2_deduplication.2.2.1 "Alice joined the game" "g" 100 310 [] "join" "Alice"
    (by decide) (by decide) (by decide) (by decide) (by decide) (by decide)

/-- **C3** — Ledger eviction: after `cleanup_expired_events` (1) or
`add_processed_event` (2) no entry more than 3600 seconds old remains; a
key recorded more than 3600 seconds ago is removed by
`cleanup_expired_events` (3) and by `add_processed_event` of another key
(4) — the removal parts assume the key uniqueness every Python dict has —
and a classified event with a truthy player name whose key is absent from
the ledger is treated as new, emitting one notification (5). -/
theorem C3_ledger_eviction :
    (∀ (now : Int) (m : EventMap) (k : String) (t : Int),
      lookupEvent (cleanup_expired_events now m) k = some t → now - t ≤ 3600)
    ∧ (∀ (now : Int) (m : EventMap) (key : String) (ts : Int) (k : String) (t : Int),
      lookupEvent (add_processed_event key ts now m) k = some t → now - t ≤ 3600)
    ∧ (∀ (now : Int) (m : EventMap) (k : String) (t : Int), isDict m →
      lookupEvent m k = some t → now - t > 3600 →
      lookupEvent (cleanup_expired_events now m) k = none)
    ∧ (∀ (now : Int) (m : EventMap) (key : String) (ts : Int) (k : String) (t : Int),
      isDict m → k ≠ key → lookupEvent m k = some t → now - t > 3600 →
      lookupEvent (add_processed_event key ts now m) k = none)
    ∧ (∀ (line gid : String) (now : Int) (E : EventMap) (et p : String),
      classifyLine line = some (et, p) → p ≠ "" →
      lookupEvent E (et ++ ":" ++ p) = none →
      gid ≠ "" →
      (process_log_line line gid now E).2 = [⟨gid, eventMessage et p⟩]) := by
  refine ⟨?_, ?_, ?_, ?_, ?_⟩
  · intro now m k t h
    exact lookup_evict_bound now m k t h
  · intro now m key ts k t h
    exact lookup_evict_bound now (dictInsert key ts m) k t h
  · intro now m k t hm hl hexp
    exact lookup_evict_dropped now m k t hm hl hexp
  · intro now m key ts k t hm hk hl hexp
    refine lookup_evict_dropped now (dictInsert key ts m) k t
      (isDict_dictInsert key ts m hm) ?_ hexp
    rw [lookup_dictInsert_ne key ts m k hk]
    exact hl
  · intro line gid now E et p hc hp hE hg
    rw [pll_fresh line gid now E et p hc hp (fun t ht => by rw [hE] at ht; cases ht) hg]

/-- Witness for C3: a key recorded at time 0 is gone after a cleanup at
time 4000. -/
theorem C3_ledger_eviction_witness :
    lookupEvent (cleanup_expired_events 4000 [("join:Alice", 0)]) "join:Alice" = none :=
  C3_ledger_eviction.2.2.1 4000 [("join:Alice", 0)] "join:Alice" 0
    (by simp [isDict]) (by decide) (by decide)

/-- **C1 (as stated, refuted)**: a fetch in the waiting state whose content
holds, beyond the stored cursor (position 1), the classifiable line
`Alice joined the game` followed by the server-ready marker processes *no*
lines at all — the cursor jumps to end-of-file before the processing loop
runs, so the lines between the previous cursor and the marker are dropped,
not fed through event matching. -/
theorem C1_counterexample :
    (tailStep ⟨1, false⟩
        "old\nAlice joined the game\nDone (3s)! For help, type \"help\"").2 = []
    ∧ (splitLines "old\nAlice joined the game\nDone (3s)! For help, type \"help\"").drop 1
        = ["Alice joined the game", "Done (3s)! For help, type \"help\""]
    ∧ classifyLine "Alice joined the game" = some ("join", "Alice")
    ∧ isReadyMarker "Done (3s)! For help, type \"help\"" = true
    ∧ pyStrip "Alice joined the game" ≠ "" := by
  exact ⟨by decide, by decide, by decide, by decide, by decide⟩

/-- **C1 (amended)**: before the ready marker is detected, on every fetch in
which the marker does not appear (and on every fetch after the transition),
each new non-blank line beyond the stored cursor is fed through line-event
matching; but on the fetch in which the marker is found, the cursor jumps
to end-of-file first and the lines between the previous cursor and
end-of-file (marker lines included) are not processed. -/
theorem C1_tailer_processing (st : TailState) (content : String)
    (hinit : st.last_position ≠ -1) (hc : content ≠ "") :
    (¬ (st.server_started = false ∧ (splitLines content).any isReadyMarker = true) →
      tailStep st content =
        ({ last_position := ((splitLines content).length : Int),
           server_started := st.server_started },
         ((splitLines content).drop st.last_position.toNat).filter
           (fun l => pyStrip l != "")))
    ∧ (st.server_started = false → (splitLines content).any isReadyMarker = true →
      tailStep st content =
        ({ last_position := ((splitLines content).length : Int),
           server_started := true }, [])) := by
  constructor
  · intro hnm
    have hcond : (!st.server_started && (splitLines content).any isReadyMarker) = false := by
      cases hss : st.server_started
      · cases hany : (splitLines content).any isReadyMarker
        · simp [hany]
        · exact absurd ⟨hss, hany⟩ hnm
      · simp [hss]
    simp [tailStep, hc, hinit, hcond]
  · intro hss hany
    have hcond : (!st.server_started && (splitLines content).any isReadyMarker) = true := by
      simp [hss, hany]
    simp [tailStep, hc, hinit, hcond]

/-- Witness for the amended C1: the marker fetch advances the cursor to
end-of-file and processes nothing. -/
theorem C1_tailer_processing_witness :
    tailStep ⟨1, false⟩ "a\nDone (1s)! For help, type \"help\"" =
      ({ last_position := ((splitLines "a\nDone (1s)! For help, type \"help\"").length : Int),
         server_started := true }, []) :=
  (C1_tailer_processing ⟨1, false⟩ "a\nDone (1s)! For help, type \"help\""
    (by decide) (by decide)).2 (by decide) (by decide)

/-- The tool-call loop hits the first `teleport_player` entry; with parsed
arguments missing or empty `player_from` / `player_to` it returns the fixed
incomplete-parameters message and issues no remote command. -/
theorem toolCallLoop_incomplete (env : AiEnv) (pre rest : List ToolCall) (tc : ToolCall)
    (pf pt : Option String)
    (hpre : ∀ tc' ∈ pre, tc'.name ≠ "teleport_player")
    (hname : tc.name = "teleport_player")
    (hargs : tc.parsedArgs = some (pf, pt))
    (hmiss : truthyOpt pf = false ∨ truthyOpt pt = false) :
    toolCallLoop env (pre ++ tc :: rest) =
      (LoopOut.ret "传送指令参数不完整，请指定正确的玩家和目标。", []) := by
  induction pre with
  | nil =>
    rcases hmiss with h | h <;>
      simp [toolCallLoop, hname, hargs, h]
  | cons head tail ih =>
    have hh := hpre head (List.mem_cons_self _ _)
    rw [List.cons_append, toolCallLoop, if_neg hh]
    exact ih (fun tc' htc' => hpre tc' (List.mem_cons_of_mem _ htc'))

/-- **C4** — Memory write-back: with a user id supplied and the completion
call succeeding, a memory entry `(user, message, content)` is appended
exactly when the completion carries non-empty plain-text content — whatever
the tool calls do; the strings produced by the tool branch are never what
is persisted. -/
theorem C4_memory_writeback (env : AiEnv) (message uid : String)
    (completion : Completion)
    (hclient : env.hasClient = true)
    (hcomp : env.completionResult = Except.ok completion) :
    (get_ai_response env message (some uid)).2.1 =
      (match completion.content with
      | some resp => if uid ≠ "" ∧ resp ≠ "" then [(uid, message, resp)] else []
      | none => []) := by
  by_cases hTC : completion.toolCalls.isEmpty
  · cases hcontent : completion.content <;>
      simp [get_ai_response, hclient, hcomp, hTC, hcontent]
  · have hTC' : completion.toolCalls.isEmpty = false := by
      cases h : completion.toolCalls.isEmpty
      · rfl
      · exact absurd h hTC
    rcases hloop : toolCallLoop env completion.toolCalls with ⟨out, cmds⟩
    cases out <;> (cases hcontent : completion.content <;>
      simp [get_ai_response, hclient, hcomp, hTC', hloop, hcontent])

/-- Witness for C4. -/
theorem C4_memory_writeback_witness :
    (get_ai_response
        { hasClient := true, execAvailable := false,
          completionResult := Except.ok ⟨some "hello", []⟩,
          execResult := fun _ => Except.error () }
        "hi" (some "u1")).2.1 = [("u1", "hi", "hello")] := by
  rw [C4_memory_writeback _ "hi" "u1" ⟨some "hello", []⟩ rfl rfl]
  decide

/-- **C5** — Incomplete tool parameters: if the completion returns a
`teleport_player` invocation (the first teleport invocation in its
tool-call list) whose parsed arguments are missing `player_from` or
`player_to` (or have either empty), `get_ai_response` returns the fixed
incomplete-parameters message and issues zero remote commands. -/
theorem C5_incomplete_tool_params (env : AiEnv) (message : String)
    (user_id : Option String) (completion : Completion)
    (pre rest : List ToolCall) (tc : ToolCall) (pf pt : Option String)
    (hclient : env.hasClient = true)
    (hcomp : env.completionResult = Except.ok completion)
    (htcs : completion.toolCalls = pre ++ tc :: rest)
    (hpre : ∀ tc' ∈ pre, tc'.name ≠ "teleport_player")
    (hname : tc.name = "teleport_player")
    (hargs : tc.parsedArgs = some (pf, pt))
    (hmiss : truthyOpt pf = false ∨ truthyOpt pt = false) :
    (get_ai_response env message user_id).1 =
      some "传送指令参数不完整，请指定正确的玩家和目标。"
    ∧ (get_ai_response env message user_id).2.2 = [] := by
  have hloop := toolCallLoop_incomplete env pre rest tc pf pt hpre hname hargs hmiss
  rw [← htcs] at hloop
  have hne : completion.toolCalls.isEmpty = false := by
    rw [htcs]
    cases pre <;> rfl
  constructor <;> cases user_id <;>
    (cases hcontent : completion.content <;>
      simp [get_ai_response, hclient, hcomp, hne, hloop, hcontent])

/-- Witness for C5: a tool call carrying only `player_from`. -/
theorem C5_incomplete_tool_params_witness :
    (get_ai_response
        { hasClient := true, execAvailable := true,
          completionResult :=
            Except.ok ⟨none, [⟨"teleport_player", some (some "A", none)⟩]⟩,
          execResult := fun _ => Except.ok CmdResult.success }
        "msg" none).1 = some "传送指令参数不完整，请指定正确的玩家和目标。" :=
  (C5_incomplete_tool_params _ "msg" none ⟨none, [⟨"teleport_player", some (some "A", none)⟩]⟩
    [] [] ⟨"teleport_player", some (some "A", none)⟩ (some "A") none
    rfl rfl rfl (by simp) rfl rfl (Or.inr rfl)).1

/-- **C6** — AI failure semantics: `get_ai_response` is a total function of
its inputs (the model catches every raising call inside it), and it returns
the empty string when no AI client is configured (1), when the completion
call raises (2), and when the tool-resolution loop's remote command raises
(3) — in every case with no exception reaching the caller. -/
theorem C6_ai_failure_semantics (env : AiEnv) (message : String)
    (user_id : Option String) :
    (env.hasClient = false → get_ai_response env message user_id = (some "", [], []))
    ∧ (∀ e, env.completionResult = Except.error e →
        get_ai_response env message user_id = (some "", [], []))
    ∧ (∀ completion cmds, env.hasClient = true →
        env.completionResult = Except.ok completion →
        toolCallLoop env completion.toolCalls = (LoopOut.raised, cmds) →
        (get_ai_response env message user_id).1 = some "") := by
  refine ⟨?_, ?_, ?_⟩
  · intro h
    simp [get_ai_response, h]
  · intro e h
    cases hc : env.hasClient <;> simp [get_ai_response, hc, h]
  · intro completion cmds hcl hcomp hloop
    have hne : completion.toolCalls.isEmpty = false := by
      cases htc : completion.toolCalls with
      | nil =>
        rw [htc] at hloop
        simp [toolCallLoop] at hloop
      | cons a l => rfl
    simp [get_ai_response, hcl, hcomp, hne, hloop]

/-- Witness for C6: no configured client yields the empty reply. -/
theorem C6_ai_failure_semantics_witness :
    get_ai_response
        { hasClient := false, execAvailable := false,
          completionResult := Except.error (),
          execResult := fun _ => Except.error () }
        "hi" none = (some "", [], []) :=
  (C6_ai_failure_semantics _ "hi" none).1 rfl

/-- **C7** — Reply eligibility: `should_ai_reply` is false whenever AI is
disabled (1); with AI enabled it is true for every private message (2); for
a group message it is true iff a non-empty self id is supplied and the raw
message contains the mention marker (3); and for any other message type it
is false (4). -/
theorem C7_should_ai_reply (message_type message : String) (self_id : Option String) :
    (should_ai_reply false message_type message self_id = false)
    ∧ (should_ai_reply true "private" message self_id = true)
    ∧ (should_ai_reply true "group" message self_id = true ↔
        ∃ sid, self_id = some sid ∧ sid ≠ "" ∧
          strContains ("[CQ:at,qq=" ++ sid ++ "]") message = true)
    ∧ (message_type ≠ "private" → message_type ≠ "group" →
        should_ai_reply true message_type message self_id = false) := by
  refine ⟨?_, ?_, ?_, ?_⟩
  · simp [should_ai_reply]
  · simp [should_ai_reply]
  · constructor
    · intro h
      cases hs : self_id with
      | none => simp [should_ai_reply, hs] at h
      | some sid =>
        by_cases hsid : sid = ""
        · subst hsid
          simp [should_ai_reply, hs] at h
        · refine ⟨sid, rfl, hsid, ?_⟩
          simpa [should_ai_reply, hs, hsid] using h
    · rintro ⟨sid, rfl, hsid, hmark⟩
      simp [should_ai_reply, hsid, hmark]
  · intro h1 h2
    cases self_id <;> simp [should_ai_reply, h1, h2]

/-- Witness for C7: an unknown message type gets no reply. -/
theorem C7_should_ai_reply_witness : should_ai_reply true "notice" "x" none = false :=
  (C7_should_ai_reply "notice" "x" none).2.2.2 (by decide) (by decide)

/-- **C8** — Outbound send: `send_message` is a total function (every
raising `connection.send` is caught); with no `"onebot"` connection
registered (1) or a registered connection whose `open` attribute is `False`
(2), the action is dropped — nothing is sent, the registry is unchanged and
only a warning is logged; and the registry is never modified (3). -/
theorem C8_send_message (registry : ConnRegistry) (message : String) :
    (lookupConn registry "onebot" = none →
      send_message registry message =
        (registry, [], ["WebSocket连接不可用，无法发送消息"]))
    ∧ (∀ c, lookupConn registry "onebot" = some c → c.openAttr = some false →
      send_message registry message =
        (registry, [], ["WebSocket连接已关闭，无法发送消息"]))
    ∧ (send_message registry message).1 = registry := by
  refine ⟨?_, ?_, ?_⟩
  · intro h
    simp [send_message, h]
  · intro c h hopen
    simp [send_message, h, hopen]
  · cases h : lookupConn registry "onebot" with
    | none => simp [send_message, h]
    | some c =>
      cases ho : c.openAttr with
      | none => cases hs : c.sendOutcome <;> simp [send_message, h, ho, hs]
      | some b =>
        cases b
        · simp [send_message, h, ho]
        · cases hs : c.sendOutcome <;> simp [send_message, h, ho, hs]

/-- Witness for C8: an empty registry drops the message with a warning. -/
theorem C8_send_message_witness :
    send_message [] "x" = ([], [], ["WebSocket连接不可用，无法发送消息"]) :=
  (C8_send_message [] "x").1 rfl

/-- **C9** — Long-term memory cap: the ≤ 30 invariant is preserved by every
rollup (1); when today's short-term memories are non-empty the rollup is
exactly "append one summary entry, keep the most recent 30": the result is
the last-30 suffix of the old list extended by the new entry (so suffix
order is preserved, the cap holds unconditionally, and the new entry is
present) (2); with no short-term memories the rollup is a no-op (3). -/
theorem C9_long_term_cap (today : String) (today_memories : List MemoryEntry)
    (old_memories : List LongTermSummary) :
    (old_memories.length ≤ 30 →
      (summarize_and_save_long_term_memory today today_memories old_memories).length ≤ 30)
    ∧ (today_memories ≠ [] →
      summarize_and_save_long_term_memory today today_memories old_memories =
        takeLast 30 (old_memories ++ [mkSummaryEntry today today_memories])
      ∧ (summarize_and_save_long_term_memory today today_memories old_memories).length
          ≤ 30
      ∧ summarize_and_save_long_term_memory today today_memories old_memories
          <:+ old_memories ++ [mkSummaryEntry today today_memories]
      ∧ mkSummaryEntry today today_memories ∈
          summarize_and_save_long_term_memory today today_memories old_memories)
    ∧ (today_memories = [] →
      summarize_and_save_long_term_memory today today_memories old_memories
        = old_memories) := by
  have hne : ∀ (h : today_memories ≠ []), today_memories.isEmpty = false := by
    intro h
    cases today_memories
    · exact absurd rfl h
    · rfl
  refine ⟨?_, ?_, ?_⟩
  · intro hcap
    by_cases h : today_memories = []
    · simp [summarize_and_save_long_term_memory, h, hcap]
    · rw [summarize_and_save_long_term_memory, if_neg (by simp [hne h])]
      rw [takeLast, List.length_drop]
      simp only [List.length_append, List.length_singleton]
      omega
  · intro h
    have heq : summarize_and_save_long_term_memory today today_memories old_memories =
        takeLast 30 (old_memories ++ [mkSummaryEntry today today_memories]) := by
      rw [summarize_and_save_long_term_memory, if_neg (by simp [hne h])]
    refine ⟨heq, ?_, ?_, ?_⟩
    · rw [heq, takeLast, List.length_drop]
      simp only [List.length_append, List.length_singleton]
      omega
    · rw [heq, takeLast]
      exact List.drop_suffix _ _
    · rw [heq, takeLast]
      have hk : (old_memories ++ [mkSummaryEntry today today_memories]).length - 30
          ≤ old_memories.length := by
        rw [List.length_append]
        simp only [List.length_singleton]
        omega
      rw [List.drop_append_of_le_length hk]
      exact List.mem_append_right _ (List.mem_singleton.mpr rfl)
  · intro h
    simp [summarize_and_save_long_term_memory, h]

/-- Witness for C9: one short-term entry rolled into an empty long-term
list appends exactly that summary. -/
theorem C9_long_term_cap_witness :
    summarize_and_save_long_term_memory "2024-01-01" [⟨"t", "m", none⟩] [] =
      takeLast 30 ([] ++ [mkSummaryEntry "2024-01-01" [⟨"t", "m", none⟩]]) :=
  ((C9_long_term_cap "2024-01-01" [⟨"t", "m", none⟩] []).2.1 (by decide)).1

/-!
## Heap lemmas for C10
-/

theorem heapGet_append_lt (h : List EventMap) (m : EventMap) (i : Nat)
    (hi : i < h.length) : heapGet (h ++ [m]) i = heapGet h i := by
  induction h generalizing i with
  | nil => cases hi
  | cons a t ih =>
    cases i with
    | zero => rfl
    | succ n => exact ih n (Nat.lt_of_succ_lt_succ hi)

theorem heapGet_append_self (h : List EventMap) (m : EventMap) :
    heapGet (h ++ [m]) h.length = m := by
  induction h with
  | nil => rfl
  | cons a t ih => exact ih

theorem heapGet_heapSet_ne (h : List EventMap) (i j : Nat) (m : EventMap)
    (hne : i ≠ j) : heapGet (heapSet h i m) j = heapGet h j := by
  induction h generalizing i j with
  | nil => rfl
  | cons a t ih =>
    cases i with
    | zero =>
      cases j with
      | zero => exact absurd rfl hne
      | succ n => rfl
    | succ n =>
      cases j with
      | zero => rfl
      | succ nj => exact ih n nj (fun hh => hne (congrArg Nat.succ hh))

theorem heapGet_oob (h : List EventMap) (i : Nat) (hi : h.length ≤ i) :
    heapGet h i = [] := by
  induction h generalizing i with
  | nil => rfl
  | cons a t ih =>
    cases i with
    | zero => exact absurd hi (by simp)
    | succ n => exact ih n (Nat.le_of_succ_le_succ hi)

/-- **C10** — `get_processed_events` returns a copy: the reference handed
to the caller is distinct from the module's cache reference (1); any
caller-side mutation (insert/update/delete) of the returned dict leaves the
cached dict's contents (2), the backing file (3) and the cache reference
(4) unchanged; and the returned dict starts out equal to the cache (5). -/
theorem C10_get_returns_copy (s : LedgerState) (f : EventMap → EventMap) :
    (get_processed_events s).2 ≠ (get_processed_events s).1.cacheRef
    ∧ heapGet (mutateRef (get_processed_events s).1 (get_processed_events s).2 f).heap
        (get_processed_events s).1.cacheRef
      = heapGet (get_processed_events s).1.heap (get_processed_events s).1.cacheRef
    ∧ (mutateRef (get_processed_events s).1 (get_processed_events s).2 f).file = s.file
    ∧ (mutateRef (get_processed_events s).1 (get_processed_events s).2 f).cacheRef
      = (get_processed_events s).1.cacheRef
    ∧ heapGet (get_processed_events s).1.heap (get_processed_events s).2
      = heapGet (get_processed_events s).1.heap (get_processed_events s).1.cacheRef := by
  by_cases hc : heapGet s.heap s.cacheRef = []
  · have hget : get_processed_events s =
        ({ heap := (s.heap ++ [s.file]) ++ [heapGet (s.heap ++ [s.file]) s.heap.length],
           cacheRef := s.heap.length, file := s.file },
         (s.heap ++ [s.file]).length) := by
      simp [get_processed_events, hc]
    have hlen : s.heap.length < (s.heap ++ [s.file]).length := by
      rw [List.length_append]
      simp only [List.length_singleton]
      omega
    rw [hget]
    refine ⟨?_, heapGet_heapSet_ne _ _ _ _ ?_, rfl, rfl, ?_⟩
    · show (s.heap ++ [s.file]).length ≠ s.heap.length
      simp only [List.length_append, List.length_singleton]
      omega
    · show (s.heap ++ [s.file]).length ≠ s.heap.length
      simp only [List.length_append, List.length_singleton]
      omega
    · show heapGet ((s.heap ++ [s.file]) ++ [heapGet (s.heap ++ [s.file]) s.heap.length])
          ((s.heap ++ [s.file]).length)
        = heapGet ((s.heap ++ [s.file]) ++ [heapGet (s.heap ++ [s.file]) s.heap.length])
          s.heap.length
      rw [heapGet_append_self (s.heap ++ [s.file]), heapGet_append_lt _ _ _ hlen]
  · have hlt : s.cacheRef < s.heap.length :=
      Nat.lt_of_not_le (fun hle => hc (heapGet_oob s.heap s.cacheRef hle))
    have hget : get_processed_events s =
        ({ heap := s.heap ++ [heapGet s.heap s.cacheRef],
           cacheRef := s.cacheRef, file := s.file },
         s.heap.length) := by
      simp [get_processed_events, hc]
    rw [hget]
    refine ⟨?_, heapGet_heapSet_ne _ _ _ _ ?_, rfl, rfl, ?_⟩
    · show s.heap.length ≠ s.cacheRef
      omega
    · show s.heap.length ≠ s.cacheRef
      omega
    · show heapGet (s.heap ++ [heapGet s.heap s.cacheRef]) s.heap.length
        = heapGet (s.heap ++ [heapGet s.heap s.cacheRef]) s.cacheRef
      rw [heapGet_append_self s.heap, heapGet_append_lt _ _ _ hlt]

/-- Witness for C10: a caller deleting every key from the dict returned for
a one-entry cache leaves the cached dict intact. -/
theorem C10_get_returns_copy_witness :
    heapGet (mutateRef (get_processed_events ⟨[[("join:Alice", 7)]], 0, []⟩).1
        (get_processed_events ⟨[[("join:Alice", 7)]], 0, []⟩).2 (fun _ => [])).heap
      (get_processed_events ⟨[[("join:Alice", 7)]], 0, []⟩).1.cacheRef
    = heapGet (get_processed_events ⟨[[("join:Alice", 7)]], 0, []⟩).1.heap
      (get_processed_events ⟨[[("join:Alice", 7)]], 0, []⟩).1.cacheRef :=
  (C10_get_returns_copy ⟨[[("join:Alice", 7)]], 0, []⟩ (fun _ => [])).2.1

end McBot


